import Mathlib

/-!
# pt: verification development for `src/pt.cpp`

A shallow embedding of the PostgreSQL set-returning function `ptdir` and of its
entry classifier `get_file_info`, followed by theorems about them.

Conventions of the embedding

* The C++ standard library and the PostgreSQL function manager are not part of
  the repository.  What they answer is data of the model: a `directory_entry`
  records the answer of every `std::filesystem` query `get_file_info` issues on
  the iterator's current entry, a `Host` records the width of the
  `FuncCallContext` counters, opens directories and formats time stamps.
* A C++ exception is the `Except.error` branch, carrying `what()`.
* The static `sessions` map is a finite map from context addresses to
  directory cursors, written as a function into `Option`.
* `ereport(ERROR, ...)` does not return to the caller: the call ends with
  `Outcome.error` and the state is the one reached at that point.
* `palloc` and `heap_form_tuple` are host services that do not return null
  (PostgreSQL reports exhaustion itself), so the branch at line 219 is not
  taken and carries no state change.
* A directory cursor is the list of the entries still to come, fixed when the
  directory is opened; `++dit` drops the head of that list and does not throw.
* The mutex `guard` serialises the map operations of concurrent backends; the
  model runs one invocation at a time, so the lock has no counterpart.
-/

namespace Pt

/-! ## `std::filesystem` data -/

/-- The enumeration `std::filesystem::file_type`. -/
inductive file_type where
  | none
  | not_found
  | regular
  | directory
  | symlink
  | block
  | character
  | fifo
  | socket
  | unknown
  deriving DecidableEq, Repr

/-- The bitmask type `std::filesystem::perms`, as the natural number of its bits. -/
abbrev perms := Nat

namespace perms

def none : perms := 0
def owner_read : perms := 0o400
def owner_write : perms := 0o200
def owner_exec : perms := 0o100
def group_read : perms := 0o40
def group_write : perms := 0o20
def group_exec : perms := 0o10
def others_read : perms := 0o4
def others_write : perms := 0o2
def others_exec : perms := 0o1

end perms

/-- The class `std::filesystem::file_status`: a type and a permission mask. -/
structure file_status where
  type : file_type
  permissions : perms
  deriving DecidableEq, Repr

/-- What the filesystem library answers for the entry a `directory_iterator`
currently points at.  Each field is the result of one query used by
`get_file_info`; a query that throws `filesystem_error` is an `Except.error`
holding the message. -/
structure directory_entry where
  /-- The value of `path().filename().string()`. -/
  filename : String
  /-- The value of `symlink_status()`: the status of the entry itself. -/
  symlink_status : Except String file_status
  /-- The value of `status()`: the status after following symbolic links. -/
  status : Except String file_status
  /-- The value of `last_write_time()`, in ticks of the file clock. -/
  last_write_time : Except String Int
  /-- The value of `file_size()`, an unsigned 64-bit count. -/
  file_size : Except String Nat
  /-- The value of `std::filesystem::read_symlink(path()).string()`. -/
  read_symlink : Except String String

/-- The observer `directory_entry::is_symlink()`, which the standard defines as
`is_symlink(symlink_status())`. -/
def directory_entry.is_symlink (e : directory_entry) : Except String Bool :=
  match e.symlink_status with
  | .ok s => .ok (decide (s.type = file_type.symlink))
  | .error what => .error what

/-- The observer `directory_entry::is_directory()`, which the standard defines as
`is_directory(status())`. -/
def directory_entry.is_directory (e : directory_entry) : Except String Bool :=
  match e.status with
  | .ok s => .ok (decide (s.type = file_type.directory))
  | .error what => .error what

/-! ## The entry classifier -/

/-- The primary template of `str_2_utf8` (lines 32-35), the one instantiated for
the `std::string` that `path::string()` returns: it hands its argument back. -/
def str_2_utf8 (str : String) : String := str

/-- The tuple `file_info_type` (lines 76-82), with the component names of the
structured binding at line 204. -/
structure file_info_type where
  fattr : String
  fsize : Int
  ftime : String
  ftype : String
  fname : String
  deriving DecidableEq, Repr

/-- Conversion of the `uintmax_t` result of `file_size()` to the `int64_t`
component of the tuple. -/
def to_int64 (n : Nat) : Int :=
  if n % 2 ^ 64 < 2 ^ 63 then ((n % 2 ^ 64 : Nat) : Int) else ((n % 2 ^ 64 : Nat) : Int) - 2 ^ 64

/-- One permission character of lines 91-99:
`perms::none == (permissions & bit) ? '-' : letter`. -/
def perm_char (permissions bit : perms) (letter : Char) : Char :=
  if perms.none = Nat.land permissions bit then '-' else letter

/-- The characters streamed into `fattr` at lines 89-99, given the value of
`dit->is_directory()` and the permission mask of the selected status. -/
def fattr_str (is_directory : Bool) (permissions : perms) : String :=
  String.mk
    [ if is_directory then 'd' else '-',
      perm_char permissions perms.owner_read 'r',
      perm_char permissions perms.owner_write 'w',
      perm_char permissions perms.owner_exec 'x',
      perm_char permissions perms.group_read 'r',
      perm_char permissions perms.group_write 'w',
      perm_char permissions perms.group_exec 'x',
      perm_char permissions perms.others_read 'r',
      perm_char permissions perms.others_write 'w',
      perm_char permissions perms.others_exec 'x' ]

/-- The status selected at line 87:
`dit->is_symlink() ? dit->symlink_status() : dit->status()`. -/
def selected_status (dit : directory_entry) : Except String file_status :=
  match dit.is_symlink with
  | .ok true => dit.symlink_status
  | .ok false => dit.status
  | .error what => .error what

/-- The type switch of lines 107-126. -/
def ftype_str (t : file_type) : String :=
  match t with
  | file_type.block => "S_ISBLK"
  | file_type.character => "S_ISCHR"
  | file_type.fifo => "S_ISFIFO"
  | file_type.socket => "S_IFSOCK"
  | _ => ""

/-- The display name of lines 128-133. -/
def fname_str (dit : directory_entry) : Except String String :=
  match dit.is_symlink with
  | .ok true =>
    match dit.read_symlink with
    | .ok target => .ok (str_2_utf8 dit.filename ++ " --> " ++ str_2_utf8 target)
    | .error what => .error what
  | .ok false => .ok (str_2_utf8 dit.filename)
  | .error what => .error what

/-- The function `get_file_info` (lines 84-136).  The queries are issued in the
order of the source, so the first one that throws decides the error.
`format_time` stands for the clock conversion of line 103 followed by
`date::format("%D %T %Z", floor<milliseconds>(tp))`. -/
def get_file_info (format_time : Int → String) (dit : directory_entry) :
    Except String file_info_type :=
  match selected_status dit with
  | .error what => .error what
  | .ok status =>
    let permissions := status.permissions
    match dit.is_directory with
    | .error what => .error what
    | .ok is_dir =>
      let fattr := fattr_str is_dir permissions
      match dit.last_write_time with
      | .error what => .error what
      | .ok tp =>
        let ftype := ftype_str status.type
        match fname_str dit with
        | .error what => .error what
        | .ok fname =>
          match dit.file_size with
          | .error what => .error what
          | .ok size =>
            .ok { fattr := fattr, fsize := to_int64 size, ftime := format_time tp,
                  ftype := ftype, fname := fname }

/-! ## The function manager -/

/-- A session handle: the address of a `FuncCallContext`, which is the key of
the `sessions` map. -/
abbrev Handle := Nat

/-- The fields of PostgreSQL's `FuncCallContext` that `ptdir` uses, together
with the address of the object.  Both counters are unsigned integers of
`Host.counter_bits` bits. -/
structure FuncCallContext where
  addr : Handle
  call_cntr : Nat
  max_calls : Nat
  deriving DecidableEq, Repr

/-- The services around `ptdir` that are not code of the repository. -/
structure Host where
  /-- Width in bits of `call_cntr` and `max_calls` (64 in current PostgreSQL,
  32 in releases before 9.6). -/
  counter_bits : Nat
  /-- The enumeration that constructing a `directory_iterator` over a path
  yields, or the exception the construction throws. -/
  open_directory : String → Except String (List directory_entry)
  /-- The clock conversion and `date::format` call of `get_file_info`. -/
  format_time : Int → String

/-- What one invocation of `ptdir` receives through `fcinfo`, and what the
function manager would answer during it. -/
structure FunctionCallInfo where
  /-- The pointer `fcinfo->flinfo->fn_extra`; `none` is the null pointer, which
  is what `SRF_IS_FIRSTCALL()` tests. -/
  fn_extra : Option FuncCallContext
  /-- The value of `PG_GETARG_INT32(0)`. -/
  row_limit : Int
  /-- The value of `PG_GETARG_CSTRING(1)`. -/
  directory_path : String
  /-- The address at which `SRF_FIRSTCALL_INIT()` allocates the context. -/
  next_alloc : Handle
  /-- Whether `get_call_result_type` answers `TYPEFUNC_COMPOSITE`. -/
  result_composite : Bool

/-- Conversion of a signed integer to an unsigned integer of `bits` bits, as in
the assignment `funcctx->max_calls = PG_GETARG_INT32( 0 )`. -/
def to_unsigned (bits : Nat) (v : Int) : Nat :=
  (v % (2 : Int) ^ bits).toNat

/-- The macro `SRF_FIRSTCALL_INIT()`: a zeroed context at the next address. -/
def SRF_FIRSTCALL_INIT (fcinfo : FunctionCallInfo) : FuncCallContext :=
  { addr := fcinfo.next_alloc, call_cntr := 0, max_calls := 0 }

/-! ## The session registry -/

/-- A directory cursor: the entries from the current one to the end of the
enumeration.  The end iterator is the empty list and `++dit` drops the head. -/
abbrev directory_iterator := List directory_entry

/-- The static map `sessions` of line 146. -/
abbrev session_map := Handle → Option directory_iterator

/-- The map that holds `dit` under `key` and is `sessions` elsewhere: the
effect of storing a cursor in the slot of `key`, as insertion does and as
`++dit` through the reference `session->second` does. -/
def session_map.assign (sessions : session_map) (key : Handle) (dit : directory_iterator) :
    session_map :=
  fun k => if k = key then some dit else sessions k

/-- The member `unordered_map::emplace`: inserts unless the key is present and
says whether it inserted. -/
def session_map.emplace (sessions : session_map) (key : Handle) (dit : directory_iterator) :
    session_map × Bool :=
  match sessions key with
  | some _ => (sessions, false)
  | none => (sessions.assign key dit, true)

/-- The member `unordered_map::erase` at the position found for `key`. -/
def session_map.erase (sessions : session_map) (key : Handle) : session_map :=
  fun k => if k = key then none else sessions k

/-! ## The set-returning function -/

/-- The row built by `heap_form_tuple` from `values` and `nulls` (lines
216-239); `none` is a column whose null flag is set. -/
structure Row where
  fattr : Option String
  fsize : Option Int
  ftime : Option String
  ftype : Option String
  fname : Option String
  deriving DecidableEq, Repr

/-- Lines 224-236: every null flag is cleared, the four plain columns get their
value, and the type column gets its value when `ftype.size()` is not zero and
its null flag otherwise. -/
def form_row (info : file_info_type) : Row :=
  { fattr := some info.fattr,
    fsize := some info.fsize,
    ftime := some info.ftime,
    ftype := if info.ftype.length ≠ 0 then some info.ftype else none,
    fname := some info.fname }

/-- How an invocation of `ptdir` ends. -/
inductive Outcome where
  /-- The macro `SRF_RETURN_NEXT`: one row is returned. -/
  | next (row : Row)
  /-- The macro `SRF_RETURN_DONE`: end of data. -/
  | done
  /-- A call of `ereport(ERROR, ...)` with this message. -/
  | error (msg : String)
  deriving DecidableEq, Repr

/-- The message of the handler at lines 258-263. -/
def thrown (what : String) : String := "dir() thrown exception: " ++ what

/-- The part of `ptdir` run on every call (lines 186-256), for the context
`funcctx` that `SRF_PERCALL_SETUP()` returns. -/
def ptdir_percall (host : Host) (sessions : session_map) (fcinfo : FunctionCallInfo)
    (funcctx : FuncCallContext) : Outcome × session_map × FunctionCallInfo :=
  match sessions funcctx.addr with
  | none => (.error (thrown "unknown session UID"), sessions, fcinfo)
  | some dit =>
    match dit with
    | [] => (.done, sessions.erase funcctx.addr, { fcinfo with fn_extra := none })
    | entry :: rest =>
      if funcctx.call_cntr < funcctx.max_calls then
        match get_file_info host.format_time entry with
        | .error what => (.error (thrown what), sessions, fcinfo)
        | .ok info =>
          (.next (form_row info), sessions.assign funcctx.addr rest,
            { fcinfo with
              fn_extra := some { funcctx with
                call_cntr := (funcctx.call_cntr + 1) % 2 ^ host.counter_bits } })
      else
        (.done, sessions.erase funcctx.addr, { fcinfo with fn_extra := none })

/-- The function `ptdir` (lines 140-272): the outcome of one invocation, the
`sessions` map after it and the call information after it. -/
def ptdir (host : Host) (sessions : session_map) (fcinfo : FunctionCallInfo) :
    Outcome × session_map × FunctionCallInfo :=
  match fcinfo.fn_extra with
  | none =>
    let funcctx : FuncCallContext :=
      { SRF_FIRSTCALL_INIT fcinfo with
        max_calls := to_unsigned host.counter_bits fcinfo.row_limit }
    let fcinfo1 : FunctionCallInfo := { fcinfo with fn_extra := some funcctx }
    if fcinfo.result_composite then
      match host.open_directory fcinfo.directory_path with
      | .error what => (.error (thrown what), sessions, fcinfo1)
      | .ok dit =>
        match sessions.emplace funcctx.addr dit with
        | (sessions1, true) => ptdir_percall host sessions1 fcinfo1 funcctx
        | (sessions1, false) => (.error (thrown "duplicated session UID"), sessions1, fcinfo1)
    else
      (.error "function returning record called in context that cannot accept type record",
        sessions, fcinfo1)
  | some funcctx => ptdir_percall host sessions fcinfo funcctx

/-- The handle an invocation works under: the context of the running session,
or the context a first call is about to allocate. -/
def FunctionCallInfo.handle (fcinfo : FunctionCallInfo) : Handle :=
  match fcinfo.fn_extra with
  | some funcctx => funcctx.addr
  | none => fcinfo.next_alloc

/-- The outcomes of `n` successive invocations through the same call
information, with the state after the last one. -/
def drive (host : Host) : Nat → session_map → FunctionCallInfo →
    List Outcome × session_map × FunctionCallInfo
  | 0, sessions, fcinfo => ([], sessions, fcinfo)
  | n + 1, sessions, fcinfo =>
    let r := ptdir host sessions fcinfo
    let rs := drive host n r.2.1 r.2.2
    (r.1 :: rs.1, rs.2.1, rs.2.2)

/-- Two sessions driven in the order given by `schedule` (`true` invokes the
first one, `false` the second one) over the shared `sessions` map: the outcomes
each session saw, in order, and the final state. -/
def interleave (host : Host) : List Bool → session_map → FunctionCallInfo → FunctionCallInfo →
    List Outcome × List Outcome × session_map × FunctionCallInfo × FunctionCallInfo
  | [], sessions, fa, fb => ([], [], sessions, fa, fb)
  | true :: schedule, sessions, fa, fb =>
    let r := ptdir host sessions fa
    let rs := interleave host schedule r.2.1 r.2.2 fb
    (r.1 :: rs.1, rs.2.1, rs.2.2.1, rs.2.2.2.1, rs.2.2.2.2)
  | false :: schedule, sessions, fa, fb =>
    let r := ptdir host sessions fb
    let rs := interleave host schedule r.2.1 fa r.2.2
    (rs.1, r.1 :: rs.2.1, rs.2.2.1, rs.2.2.2.1, rs.2.2.2.2)

/-! ## Concrete inputs used below -/

/-- A regular file `a.txt` with mode 644 and 10 bytes. -/
def sample_file : directory_entry :=
  { filename := "a.txt",
    symlink_status := .ok { type := file_type.regular, permissions := 0o644 },
    status := .ok { type := file_type.regular, permissions := 0o644 },
    last_write_time := .ok 0,
    file_size := .ok 10,
    read_symlink := .error "filesystem error: read_symlink: Invalid argument [a.txt]" }

/-- A character device `tty` with mode 620.  Its status and its time stamp can
be read; `file_size()` throws, as the library does for every file that is not
a regular file. -/
def sample_device : directory_entry :=
  { filename := "tty",
    symlink_status := .ok { type := file_type.character, permissions := 0o620 },
    status := .ok { type := file_type.character, permissions := 0o620 },
    last_write_time := .ok 0,
    file_size :=
      .error "filesystem error: cannot get file size: Operation not supported [tty]",
    read_symlink := .error "filesystem error: read_symlink: Invalid argument [tty]" }

/-- A subdirectory `sub` with mode 755; `file_size()` throws for it as well. -/
def sample_dir : directory_entry :=
  { filename := "sub",
    symlink_status := .ok { type := file_type.directory, permissions := 0o755 },
    status := .ok { type := file_type.directory, permissions := 0o755 },
    last_write_time := .ok 0,
    file_size := .error "filesystem error: cannot get file size: Is a directory [sub]",
    read_symlink := .error "filesystem error: read_symlink: Invalid argument [sub]" }

/-- A symbolic link `ln` with mode 777 to the regular file `a.txt` of mode 644. -/
def sample_link : directory_entry :=
  { filename := "ln",
    symlink_status := .ok { type := file_type.symlink, permissions := 0o777 },
    status := .ok { type := file_type.regular, permissions := 0o644 },
    last_write_time := .ok 0,
    file_size := .ok 10,
    read_symlink := .ok "a.txt" }

/-- A symbolic link `dangling` whose target `missing` does not exist: the
status of the link itself and its target text can be read, `status()` answers
`not_found` with unknown permissions, and the two queries that need the target
file, `last_write_time()` and `file_size()`, throw. -/
def broken_link : directory_entry :=
  { filename := "dangling",
    symlink_status := .ok { type := file_type.symlink, permissions := 0o777 },
    status := .ok { type := file_type.not_found, permissions := 0xFFFF },
    last_write_time :=
      .error "filesystem error: cannot get file time: No such file or directory [dangling]",
    file_size :=
      .error "filesystem error: cannot get file size: No such file or directory [dangling]",
    read_symlink := .ok "missing" }

/-- A host with 64-bit counters whose directory `/a` holds `sample_file` and
`sample_link`, whose directory `/b` holds `sample_device`, whose directory
`/c` holds `broken_link` followed by `sample_file`, and whose directory `/d`
holds `sample_file` followed by `sample_dir`. -/
def sample_host : Host :=
  { counter_bits := 64,
    open_directory := fun path =>
      if path = "/a" then .ok [sample_file, sample_link]
      else if path = "/b" then .ok [sample_device]
      else if path = "/c" then .ok [broken_link, sample_file]
      else if path = "/d" then .ok [sample_file, sample_dir]
      else .error "filesystem error: directory iterator cannot open directory",
    format_time := fun _ => "01/01/70 00:00:00.000 UTC" }

/-- The call information of a first call with the given row limit, path and
next context address. -/
def first_call (row_limit : Int) (directory_path : String) (next_alloc : Handle) :
    FunctionCallInfo :=
  { fn_extra := none, row_limit := row_limit, directory_path := directory_path,
    next_alloc := next_alloc, result_composite := true }

/-- The empty `sessions` map of a process that has not run `ptdir` yet. -/
def no_sessions : session_map := fun _ => none

/-- A `sessions` map that holds the one cursor `dit` under `key`. -/
def one_session (key : Handle) (dit : directory_iterator) : session_map :=
  no_sessions.assign key dit

/-- The call information of a later call of a session whose context is
`funcctx`. -/
def running_call (funcctx : FuncCallContext) (row_limit : Int) (directory_path : String) :
    FunctionCallInfo :=
  { fn_extra := some funcctx, row_limit := row_limit, directory_path := directory_path,
    next_alloc := funcctx.addr, result_composite := true }

/-- The state of a session that works under handle `h` on the enumeration
`es`: its contexts are allocated at `h`, it is registered whenever the map
holds a cursor under `h`, and that cursor is a tail of `es`. -/
def session_invariant (host : Host) (es : List directory_entry) (h : Handle)
    (sessions : session_map) (fcinfo : FunctionCallInfo) : Prop :=
  fcinfo.next_alloc = h ∧
  (∀ funcctx, fcinfo.fn_extra = some funcctx → funcctx.addr = h) ∧
  (fcinfo.fn_extra = none → sessions h = none) ∧
  (∀ cur, sessions h = some cur → ∃ before, before ++ cur = es) ∧
  host.open_directory fcinfo.directory_path = .ok es

/-- The tuple `get_file_info` returns for an entry on `sample_host`, and an
empty tuple for an entry on which it throws. -/
def sample_info (e : directory_entry) : file_info_type :=
  match get_file_info sample_host.format_time e with
  | .ok info => info
  | .error _ => { fattr := "", fsize := 0, ftime := "", ftype := "", fname := "" }

/-- The answer of the filesystem library to `file_size()`, as a property of an
entry: the query succeeds only when the file the entry resolves to, after
following symbolic links, is a regular file; for every other kind it throws. -/
def file_size_needs_regular_file (dit : directory_entry) : Prop :=
  ∀ size, dit.file_size = .ok size →
    ∃ target, dit.status = .ok target ∧ target.type = file_type.regular

/-! ## Permission characters -/

theorem land_two_pow_eq_zero (x i : Nat) : Nat.land x (2 ^ i) = 0 ↔ x.testBit i = false := by
  constructor
  · intro h
    have h2 : (x &&& 2 ^ i).testBit i = false := by
      rw [show x &&& 2 ^ i = 0 from h]; simp
    simpa [Nat.testBit_and, Nat.testBit_two_pow_self] using h2
  · intro h
    apply Nat.eq_of_testBit_eq
    intro j
    show (x &&& 2 ^ i).testBit j = Nat.testBit 0 j
    simp only [Nat.testBit_and, Nat.testBit_two_pow, Nat.zero_testBit]
    by_cases hj : i = j
    · subst hj; simp [h]
    · simp [hj]

theorem perm_char_eq (p : perms) (i : Nat) (letter : Char) :
    perm_char p (2 ^ i) letter = if p.testBit i then letter else '-' := by
  unfold perm_char perms.none
  by_cases h : p.testBit i = true
  · have : ¬ (Nat.land p (2 ^ i) = 0) := by
      rw [land_two_pow_eq_zero]; simp [h]
    have this2 : ¬ (0 = Nat.land p (2 ^ i)) := fun e => this e.symm
    rw [if_neg this2, if_pos h]
  · have h0 : p.testBit i = false := by simpa using h
    have : Nat.land p (2 ^ i) = 0 := (land_two_pow_eq_zero p i).2 h0
    rw [if_pos this.symm]; simp [h0]

theorem fattr_str_data (d : Bool) (p : perms) :
    (fattr_str d p).data =
      [ if d then 'd' else '-',
        if p.testBit 8 then 'r' else '-',
        if p.testBit 7 then 'w' else '-',
        if p.testBit 6 then 'x' else '-',
        if p.testBit 5 then 'r' else '-',
        if p.testBit 4 then 'w' else '-',
        if p.testBit 3 then 'x' else '-',
        if p.testBit 2 then 'r' else '-',
        if p.testBit 1 then 'w' else '-',
        if p.testBit 0 then 'x' else '-' ] := by
  have e8 : perms.owner_read = 2 ^ 8 := by decide
  have e7 : perms.owner_write = 2 ^ 7 := by decide
  have e6 : perms.owner_exec = 2 ^ 6 := by decide
  have e5 : perms.group_read = 2 ^ 5 := by decide
  have e4 : perms.group_write = 2 ^ 4 := by decide
  have e3 : perms.group_exec = 2 ^ 3 := by decide
  have e2 : perms.others_read = 2 ^ 2 := by decide
  have e1 : perms.others_write = 2 ^ 1 := by decide
  have e0 : perms.others_exec = 2 ^ 0 := by decide
  unfold fattr_str
  rw [e8, e7, e6, e5, e4, e3, e2, e1, e0]
  simp only [perm_char_eq]


/-! ## The entry classifier: theorems -/

/-- The tuple `get_file_info` returns when every query it issues succeeds. -/
theorem get_file_info_ok (format_time : Int → String) (dit : directory_entry)
    (st target : file_status) (tp : Int) (fname : String) (size : Nat)
    (hsel : selected_status dit = .ok st) (hstatus : dit.status = .ok target)
    (htime : dit.last_write_time = .ok tp) (hname : fname_str dit = .ok fname)
    (hsize : dit.file_size = .ok size) :
    get_file_info format_time dit =
      .ok { fattr := fattr_str (decide (target.type = file_type.directory)) st.permissions,
            fsize := to_int64 size, ftime := format_time tp,
            ftype := ftype_str st.type, fname := fname } := by
  simp [get_file_info, hsel, directory_entry.is_directory, hstatus, htime, hname, hsize]

/-- A tuple returned by `get_file_info` was built from successful queries. -/
theorem get_file_info_inv (format_time : Int → String) (dit : directory_entry)
    (info : file_info_type) (h : get_file_info format_time dit = .ok info) :
    ∃ st target tp fname size,
      selected_status dit = .ok st ∧ dit.status = .ok target ∧
      dit.last_write_time = .ok tp ∧ fname_str dit = .ok fname ∧ dit.file_size = .ok size ∧
      info = { fattr := fattr_str (decide (target.type = file_type.directory)) st.permissions,
               fsize := to_int64 size, ftime := format_time tp,
               ftype := ftype_str st.type, fname := fname } := by
  unfold get_file_info at h
  cases hsel : selected_status dit with
  | error w => simp [hsel] at h
  | ok st =>
    cases hstatus : dit.status with
    | error w => simp [hsel, directory_entry.is_directory, hstatus] at h
    | ok target =>
      cases htime : dit.last_write_time with
      | error w => simp [hsel, directory_entry.is_directory, hstatus, htime] at h
      | ok tp =>
        cases hname : fname_str dit with
        | error w => simp [hsel, directory_entry.is_directory, hstatus, htime, hname] at h
        | ok fname =>
          cases hsize : dit.file_size with
          | error w =>
            simp [hsel, directory_entry.is_directory, hstatus, htime, hname, hsize] at h
          | ok size =>
            simp [hsel, directory_entry.is_directory, hstatus, htime, hname, hsize] at h
            exact ⟨st, target, tp, fname, size, rfl, rfl, rfl, rfl, rfl, h.symm⟩

/-- C4: for an entry whose selected status is `st` and whose followed status is
`target`, the attribute string `get_file_info` builds (and returns in every
tuple it returns) has exactly 10 characters, all from d, -, r, w, x; the first
is d when the entry is a directory and - otherwise, in particular for a
regular file; the next nine are r/w/x for the owner, group and others bits of
`st` in that order when the bit is set, and - when it is not. -/
theorem get_file_info_fattr_layout (format_time : Int → String) (dit : directory_entry)
    (st target : file_status)
    (hsel : selected_status dit = .ok st) (hstatus : dit.status = .ok target) :
    (∀ info, get_file_info format_time dit = .ok info →
      info.fattr = fattr_str (decide (target.type = file_type.directory)) st.permissions) ∧
    (fattr_str (decide (target.type = file_type.directory)) st.permissions).length = 10 ∧
    (∀ c ∈ (fattr_str (decide (target.type = file_type.directory)) st.permissions).data,
      c ∈ ['d', '-', 'r', 'w', 'x']) ∧
    (fattr_str (decide (target.type = file_type.directory)) st.permissions).data =
      [ if target.type = file_type.directory then 'd' else '-',
        if st.permissions.testBit 8 then 'r' else '-',
        if st.permissions.testBit 7 then 'w' else '-',
        if st.permissions.testBit 6 then 'x' else '-',
        if st.permissions.testBit 5 then 'r' else '-',
        if st.permissions.testBit 4 then 'w' else '-',
        if st.permissions.testBit 3 then 'x' else '-',
        if st.permissions.testBit 2 then 'r' else '-',
        if st.permissions.testBit 1 then 'w' else '-',
        if st.permissions.testBit 0 then 'x' else '-' ] ∧
    (target.type = file_type.directory →
      (fattr_str (decide (target.type = file_type.directory)) st.permissions).data.head? =
        some 'd') ∧
    (target.type = file_type.regular →
      (fattr_str (decide (target.type = file_type.directory)) st.permissions).data.head? =
        some '-') := by
  have hdata := fattr_str_data (decide (target.type = file_type.directory)) st.permissions
  refine ⟨?_, ?_, ?_, ?_, ?_, ?_⟩
  · intro info hinfo
    obtain ⟨st2, target2, tp, fname, size, h1, h2, _, _, _, h6⟩ :=
      get_file_info_inv format_time dit info hinfo
    rw [hsel] at h1
    rw [hstatus] at h2
    cases h1
    cases h2
    rw [h6]
  · rw [String.length, hdata]
    rfl
  · intro c hc
    rw [hdata] at hc
    simp only [List.mem_cons, List.mem_singleton, List.not_mem_nil, or_false] at hc
    rcases hc with h | h | h | h | h | h | h | h | h | h <;> rw [h] <;> split <;> decide
  · rw [hdata]
    simp
  · intro hd
    rw [hdata]
    simp [hd]
  · intro hr
    rw [hdata]
    simp [hr]

/-- Witness for C4: the regular file `a.txt` of mode 644. -/
theorem get_file_info_fattr_layout_witness :
    (fattr_str (decide (file_type.regular = file_type.directory)) 0o644).length = 10 ∧
    get_file_info (fun _ => "t") sample_file =
      .ok { fattr := "-rw-r--r--", fsize := 10, ftime := "t", ftype := "", fname := "a.txt" } ∧
    (fattr_str (decide (file_type.regular = file_type.directory)) 0o644).data.head? =
      some '-' :=
  have h := get_file_info_fattr_layout (fun _ => "t") sample_file
    { type := file_type.regular, permissions := 0o644 }
    { type := file_type.regular, permissions := 0o644 } rfl rfl
  ⟨h.2.1, rfl, h.2.2.2.2.2 rfl⟩

/-- Whenever `get_file_info` returns a tuple for an entry, the type column of
the row `ptdir` forms from it is non-null exactly when the type of the entry's
selected status is block, character, fifo or socket; for every other type the
returned type string is empty and the column is null; the column never holds
an empty string. -/
theorem ftype_column_null_iff (format_time : Int → String) (dit : directory_entry)
    (info : file_info_type) (h : get_file_info format_time dit = .ok info) :
    ∃ st, selected_status dit = .ok st ∧
      ((form_row info).ftype ≠ none ↔
        (st.type = file_type.block ∨ st.type = file_type.character ∨
          st.type = file_type.fifo ∨ st.type = file_type.socket)) ∧
      (¬ (st.type = file_type.block ∨ st.type = file_type.character ∨
          st.type = file_type.fifo ∨ st.type = file_type.socket) →
        info.ftype = "" ∧ (form_row info).ftype = none) ∧
      (form_row info).ftype ≠ some "" := by
  obtain ⟨st, target, tp, fname, size, h1, _, _, _, _, h6⟩ :=
    get_file_info_inv format_time dit info h
  refine ⟨st, h1, ?_⟩
  subst h6
  cases hty : st.type <;> simp [form_row, ftype_str, hty] <;> decide

/-! ## The session registry: lemmas -/

theorem session_map.assign_same (sessions : session_map) (key : Handle)
    (dit : directory_iterator) : sessions.assign key dit key = some dit := by
  simp [session_map.assign]

theorem session_map.assign_other (sessions : session_map) (key h : Handle)
    (dit : directory_iterator) (hne : h ≠ key) : sessions.assign key dit h = sessions h := by
  simp [session_map.assign, hne]

theorem session_map.erase_same (sessions : session_map) (key : Handle) :
    sessions.erase key key = none := by
  simp [session_map.erase]

theorem session_map.erase_other (sessions : session_map) (key h : Handle) (hne : h ≠ key) :
    sessions.erase key h = sessions h := by
  simp [session_map.erase, hne]

theorem session_map.erase_assign (sessions : session_map) (key : Handle)
    (dit : directory_iterator) : (sessions.assign key dit).erase key = sessions.erase key := by
  funext k
  by_cases hk : k = key <;> simp [session_map.assign, session_map.erase, hk]

theorem session_map.emplace_absent (sessions : session_map) (key : Handle)
    (dit : directory_iterator) (h : sessions key = none) :
    sessions.emplace key dit = (sessions.assign key dit, true) := by
  simp [session_map.emplace, h]

theorem session_map.emplace_present (sessions : session_map) (key : Handle)
    (dit old : directory_iterator) (h : sessions key = some old) :
    sessions.emplace key dit = (sessions, false) := by
  simp [session_map.emplace, h]

/-! ## One invocation: case lemmas -/

theorem ptdir_percall_unknown (host : Host) (sessions : session_map) (fcinfo : FunctionCallInfo)
    (funcctx : FuncCallContext) (h : sessions funcctx.addr = none) :
    ptdir_percall host sessions fcinfo funcctx =
      (.error (thrown "unknown session UID"), sessions, fcinfo) := by
  simp [ptdir_percall, h]

theorem ptdir_percall_done (host : Host) (sessions : session_map) (fcinfo : FunctionCallInfo)
    (funcctx : FuncCallContext) (dit : directory_iterator)
    (h : sessions funcctx.addr = some dit)
    (hdone : dit = [] ∨ ¬ funcctx.call_cntr < funcctx.max_calls) :
    ptdir_percall host sessions fcinfo funcctx =
      (.done, sessions.erase funcctx.addr, { fcinfo with fn_extra := none }) := by
  cases dit with
  | nil => simp [ptdir_percall, h]
  | cons entry rest =>
    have hlim : ¬ funcctx.call_cntr < funcctx.max_calls := by
      rcases hdone with h0 | h0
      · cases h0
      · exact h0
    simp [ptdir_percall, h, hlim]

theorem ptdir_percall_next (host : Host) (sessions : session_map) (fcinfo : FunctionCallInfo)
    (funcctx : FuncCallContext) (entry : directory_entry) (rest : directory_iterator)
    (info : file_info_type)
    (h : sessions funcctx.addr = some (entry :: rest))
    (hlim : funcctx.call_cntr < funcctx.max_calls)
    (hinfo : get_file_info host.format_time entry = .ok info) :
    ptdir_percall host sessions fcinfo funcctx =
      (.next (form_row info), sessions.assign funcctx.addr rest,
        { fcinfo with
          fn_extra := some { funcctx with
            call_cntr := (funcctx.call_cntr + 1) % 2 ^ host.counter_bits } }) := by
  simp [ptdir_percall, h, hlim, hinfo]

theorem ptdir_percall_throw (host : Host) (sessions : session_map) (fcinfo : FunctionCallInfo)
    (funcctx : FuncCallContext) (entry : directory_entry) (rest : directory_iterator)
    (what : String)
    (h : sessions funcctx.addr = some (entry :: rest))
    (hlim : funcctx.call_cntr < funcctx.max_calls)
    (hinfo : get_file_info host.format_time entry = .error what) :
    ptdir_percall host sessions fcinfo funcctx = (.error (thrown what), sessions, fcinfo) := by
  simp [ptdir_percall, h, hlim, hinfo]

theorem ptdir_of_running (host : Host) (sessions : session_map) (fcinfo : FunctionCallInfo)
    (funcctx : FuncCallContext) (h : fcinfo.fn_extra = some funcctx) :
    ptdir host sessions fcinfo = ptdir_percall host sessions fcinfo funcctx := by
  simp [ptdir, h]

/-- A first call that gets as far as registering a fresh handle continues as
the per-call part on the registered cursor. -/
theorem ptdir_of_first (host : Host) (sessions : session_map) (fcinfo : FunctionCallInfo)
    (es : List directory_entry)
    (hfirst : fcinfo.fn_extra = none) (hcomp : fcinfo.result_composite = true)
    (hopen : host.open_directory fcinfo.directory_path = .ok es)
    (hfresh : sessions fcinfo.next_alloc = none) :
    ptdir host sessions fcinfo =
      ptdir_percall host (sessions.assign fcinfo.next_alloc es)
        { fcinfo with
          fn_extra := some { addr := fcinfo.next_alloc, call_cntr := 0,
                             max_calls := to_unsigned host.counter_bits fcinfo.row_limit } }
        { addr := fcinfo.next_alloc, call_cntr := 0,
          max_calls := to_unsigned host.counter_bits fcinfo.row_limit } := by
  simp [ptdir, hfirst, hcomp, hopen, SRF_FIRSTCALL_INIT,
    session_map.emplace_absent sessions fcinfo.next_alloc es hfresh]

theorem ptdir_percall_done_erases (host : Host) (sessions : session_map)
    (fcinfo : FunctionCallInfo) (funcctx : FuncCallContext)
    (hdone : (ptdir_percall host sessions fcinfo funcctx).1 = .done) :
    (ptdir_percall host sessions fcinfo funcctx).2.1 funcctx.addr = none := by
  unfold ptdir_percall at hdone ⊢
  cases hs : sessions funcctx.addr with
  | none => simp [hs] at hdone
  | some dit =>
    cases dit with
    | nil => simp [session_map.erase]
    | cons entry rest =>
      by_cases hlim : funcctx.call_cntr < funcctx.max_calls
      · cases hinfo : get_file_info host.format_time entry with
        | error what => simp [hs, hlim, hinfo] at hdone
        | ok info => simp [hs, hlim, hinfo] at hdone
      · simp [hlim, session_map.erase]

theorem ptdir_done_erases (host : Host) (sessions : session_map) (fcinfo : FunctionCallInfo)
    (hdone : (ptdir host sessions fcinfo).1 = .done) :
    (ptdir host sessions fcinfo).2.1 fcinfo.handle = none := by
  cases hx : fcinfo.fn_extra with
  | some funcctx =>
    rw [ptdir_of_running host sessions fcinfo funcctx hx] at hdone ⊢
    have := ptdir_percall_done_erases host sessions fcinfo funcctx hdone
    simpa [FunctionCallInfo.handle, hx] using this
  | none =>
    have hh : fcinfo.handle = fcinfo.next_alloc := by simp [FunctionCallInfo.handle, hx]
    by_cases hcomp : fcinfo.result_composite = true
    · cases hopen : host.open_directory fcinfo.directory_path with
      | error what => simp [ptdir, hx, hcomp, hopen] at hdone
      | ok es =>
        cases hreg : sessions fcinfo.next_alloc with
        | some old =>
          simp [ptdir, hx, hcomp, hopen, SRF_FIRSTCALL_INIT,
            session_map.emplace_present sessions fcinfo.next_alloc es old hreg] at hdone
        | none =>
          rw [ptdir_of_first host sessions fcinfo es hx hcomp hopen hreg] at hdone ⊢
          rw [hh]
          exact ptdir_percall_done_erases host _ _ _ hdone
    · simp [ptdir, hx, hcomp] at hdone

theorem drive_unknown (host : Host) (sessions : session_map) (fcinfo : FunctionCallInfo)
    (funcctx : FuncCallContext) (hx : fcinfo.fn_extra = some funcctx)
    (habsent : sessions funcctx.addr = none) (n : Nat) :
    drive host n sessions fcinfo =
      (List.replicate n (.error (thrown "unknown session UID")), sessions, fcinfo) := by
  induction n with
  | zero => rfl
  | succ n ih =>
    have h1 : ptdir host sessions fcinfo =
        (.error (thrown "unknown session UID"), sessions, fcinfo) := by
      rw [ptdir_of_running host sessions fcinfo funcctx hx]
      exact ptdir_percall_unknown host sessions fcinfo funcctx habsent
    simp [drive, h1, ih, List.replicate_succ]

/-! ## Error handling of the session protocol -/

/-- C3: when an invocation ends with DONE, the cursor of its handle is no longer
in the `sessions` map, and every later invocation that arrives with a context
at that handle already set (so without a first-call registration) ends with
the error `unknown session UID` and changes nothing: it yields neither a row
nor end-of-data, however often it is repeated. -/
theorem done_session_is_unknown (host : Host) (sessions : session_map)
    (fcinfo : FunctionCallInfo) (hdone : (ptdir host sessions fcinfo).1 = .done) :
    (ptdir host sessions fcinfo).2.1 fcinfo.handle = none ∧
    ∀ (later : FunctionCallInfo) (funcctx : FuncCallContext),
      later.fn_extra = some funcctx → funcctx.addr = fcinfo.handle →
      ∀ n : Nat,
        drive host n (ptdir host sessions fcinfo).2.1 later =
          (List.replicate n (.error (thrown "unknown session UID")),
            (ptdir host sessions fcinfo).2.1, later) := by
  have herased := ptdir_done_erases host sessions fcinfo hdone
  refine ⟨herased, ?_⟩
  intro later funcctx hx haddr n
  apply drive_unknown host _ later funcctx hx
  rw [haddr]
  exact herased

/-- C10: when the handle of a running session is registered with a cursor at
`entry`, the row limit is not reached and `get_file_info` throws on `entry`,
the invocation ends with an error carrying the exception text, returns no row,
and leaves the `sessions` map and the call context exactly as they were: the
handle is still registered and its cursor still stands at `entry`. -/
theorem classification_failure_keeps_session (host : Host) (sessions : session_map)
    (fcinfo : FunctionCallInfo) (funcctx : FuncCallContext) (entry : directory_entry)
    (rest : directory_iterator) (what : String)
    (hrun : fcinfo.fn_extra = some funcctx)
    (hreg : sessions funcctx.addr = some (entry :: rest))
    (hlim : funcctx.call_cntr < funcctx.max_calls)
    (hthrow : get_file_info host.format_time entry = .error what) :
    ptdir host sessions fcinfo = (.error (thrown what), sessions, fcinfo) ∧
    (ptdir host sessions fcinfo).2.1 funcctx.addr = some (entry :: rest) := by
  have h : ptdir host sessions fcinfo = (.error (thrown what), sessions, fcinfo) := by
    rw [ptdir_of_running host sessions fcinfo funcctx hrun]
    exact ptdir_percall_throw host sessions fcinfo funcctx entry rest what hreg hlim hthrow
  refine ⟨h, ?_⟩
  rw [h]
  exact hreg

/-- C7: a first call whose new context lies at a handle that is already in the
`sessions` map leaves the map exactly as it was, so the registered cursor and
every other entry are untouched, and ends with an error; when the result type
is accepted and the directory can be opened, so that the call gets as far as
registering, that error is `duplicated session UID`. -/
theorem duplicate_session_rejected (host : Host) (sessions : session_map)
    (fcinfo : FunctionCallInfo) (old : directory_iterator)
    (hfirst : fcinfo.fn_extra = none)
    (hreg : sessions fcinfo.next_alloc = some old) :
    (ptdir host sessions fcinfo).2.1 = sessions ∧
    (ptdir host sessions fcinfo).2.1 fcinfo.next_alloc = some old ∧
    (∃ msg, (ptdir host sessions fcinfo).1 = .error msg) ∧
    (∀ es, fcinfo.result_composite = true →
      host.open_directory fcinfo.directory_path = .ok es →
      (sessions.emplace fcinfo.next_alloc es = (sessions, false) ∧
        (ptdir host sessions fcinfo).1 = .error (thrown "duplicated session UID"))) := by
  by_cases hcomp : fcinfo.result_composite = true
  · cases hopen : host.open_directory fcinfo.directory_path with
    | error what =>
      simp [ptdir, hfirst, hcomp, hopen, hreg]
    | ok es =>
      have he := session_map.emplace_present sessions fcinfo.next_alloc es old hreg
      simp [ptdir, hfirst, hcomp, hopen, SRF_FIRSTCALL_INIT, he, hreg]
  · simp [ptdir, hfirst, hcomp, hreg]

/-! ## Sessions do not interfere -/

theorem ptdir_percall_frame (host : Host) (sessions : session_map) (fcinfo : FunctionCallInfo)
    (funcctx : FuncCallContext) (h : Handle) (hne : h ≠ funcctx.addr) :
    (ptdir_percall host sessions fcinfo funcctx).2.1 h = sessions h := by
  unfold ptdir_percall
  cases hs : sessions funcctx.addr with
  | none => rfl
  | some dit =>
    cases dit with
    | nil => simp [session_map.erase, hne]
    | cons entry rest =>
      by_cases hlim : funcctx.call_cntr < funcctx.max_calls
      · cases hinfo : get_file_info host.format_time entry with
        | error what => simp [hlim, hinfo]
        | ok info => simp [hlim, hinfo, session_map.assign, hne]
      · simp [hlim, session_map.erase, hne]

/-- An invocation leaves the cursor of every handle other than its own as it
was. -/
theorem ptdir_frame (host : Host) (sessions : session_map) (fcinfo : FunctionCallInfo)
    (h : Handle) (hne : h ≠ fcinfo.handle) :
    (ptdir host sessions fcinfo).2.1 h = sessions h := by
  cases hx : fcinfo.fn_extra with
  | some funcctx =>
    rw [ptdir_of_running host sessions fcinfo funcctx hx]
    apply ptdir_percall_frame
    simpa [FunctionCallInfo.handle, hx] using hne
  | none =>
    have hne2 : h ≠ fcinfo.next_alloc := by simpa [FunctionCallInfo.handle, hx] using hne
    by_cases hcomp : fcinfo.result_composite = true
    · cases hopen : host.open_directory fcinfo.directory_path with
      | error what => simp [ptdir, hx, hcomp, hopen]
      | ok es =>
        cases hreg : sessions fcinfo.next_alloc with
        | some old =>
          simp [ptdir, hx, hcomp, hopen, SRF_FIRSTCALL_INIT,
            session_map.emplace_present sessions fcinfo.next_alloc es old hreg]
        | none =>
          rw [ptdir_of_first host sessions fcinfo es hx hcomp hopen hreg]
          rw [ptdir_percall_frame host _ _ _ h hne2]
          exact session_map.assign_other sessions fcinfo.next_alloc h es hne2
    · simp [ptdir, hx, hcomp]

theorem ptdir_percall_local (host : Host) (s1 s2 : session_map) (fcinfo : FunctionCallInfo)
    (funcctx : FuncCallContext) (heq : s1 funcctx.addr = s2 funcctx.addr) :
    (ptdir_percall host s1 fcinfo funcctx).1 = (ptdir_percall host s2 fcinfo funcctx).1 ∧
    (ptdir_percall host s1 fcinfo funcctx).2.2 = (ptdir_percall host s2 fcinfo funcctx).2.2 ∧
    (ptdir_percall host s1 fcinfo funcctx).2.1 funcctx.addr =
      (ptdir_percall host s2 fcinfo funcctx).2.1 funcctx.addr := by
  unfold ptdir_percall
  rw [heq]
  cases hs : s2 funcctx.addr with
  | none => simp [heq, hs]
  | some dit =>
    cases dit with
    | nil => simp [session_map.erase]
    | cons entry rest =>
      by_cases hlim : funcctx.call_cntr < funcctx.max_calls
      · cases hinfo : get_file_info host.format_time entry with
        | error what => simp [hlim, hinfo, heq, hs]
        | ok info => simp [hlim, hinfo, session_map.assign]
      · simp [hlim, session_map.erase]

/-- The outcome of an invocation, the call information after it and the cursor
left under its handle depend on the `sessions` map only through the cursor
registered under that handle. -/
theorem ptdir_local (host : Host) (s1 s2 : session_map) (fcinfo : FunctionCallInfo)
    (heq : s1 fcinfo.handle = s2 fcinfo.handle) :
    (ptdir host s1 fcinfo).1 = (ptdir host s2 fcinfo).1 ∧
    (ptdir host s1 fcinfo).2.2 = (ptdir host s2 fcinfo).2.2 ∧
    (ptdir host s1 fcinfo).2.1 fcinfo.handle = (ptdir host s2 fcinfo).2.1 fcinfo.handle := by
  cases hx : fcinfo.fn_extra with
  | some funcctx =>
    have hh : fcinfo.handle = funcctx.addr := by simp [FunctionCallInfo.handle, hx]
    rw [hh] at heq ⊢
    rw [ptdir_of_running host s1 fcinfo funcctx hx, ptdir_of_running host s2 fcinfo funcctx hx]
    exact ptdir_percall_local host s1 s2 fcinfo funcctx heq
  | none =>
    have hh : fcinfo.handle = fcinfo.next_alloc := by simp [FunctionCallInfo.handle, hx]
    rw [hh] at heq ⊢
    by_cases hcomp : fcinfo.result_composite = true
    · cases hopen : host.open_directory fcinfo.directory_path with
      | error what => simp [ptdir, hx, hcomp, hopen, heq]
      | ok es =>
        cases hreg : s2 fcinfo.next_alloc with
        | some old =>
          have hreg1 : s1 fcinfo.next_alloc = some old := by rw [heq, hreg]
          simp [ptdir, hx, hcomp, hopen, SRF_FIRSTCALL_INIT,
            session_map.emplace_present s1 fcinfo.next_alloc es old hreg1,
            session_map.emplace_present s2 fcinfo.next_alloc es old hreg, hreg, hreg1]
        | none =>
          have hreg1 : s1 fcinfo.next_alloc = none := by rw [heq, hreg]
          rw [ptdir_of_first host s1 fcinfo es hx hcomp hopen hreg1,
            ptdir_of_first host s2 fcinfo es hx hcomp hopen hreg]
          apply ptdir_percall_local
          simp [session_map.assign]
    · simp [ptdir, hx, hcomp, heq]

theorem ptdir_percall_keeps_owner (host : Host) (sessions : session_map)
    (fcinfo : FunctionCallInfo) (funcctx : FuncCallContext) (h : Handle)
    (hnext : fcinfo.next_alloc = h) (haddr : funcctx.addr = h) :
    (ptdir_percall host sessions fcinfo funcctx).2.2.next_alloc = h ∧
    (ptdir_percall host sessions fcinfo funcctx).2.2.directory_path = fcinfo.directory_path ∧
    (∀ ctx, (ptdir_percall host sessions fcinfo funcctx).2.2.fn_extra = some ctx →
      ctx.addr = h ∨ fcinfo.fn_extra = some ctx) := by
  cases hs : sessions funcctx.addr with
  | none =>
    rw [ptdir_percall_unknown host sessions fcinfo funcctx hs]
    exact ⟨hnext, rfl, fun ctx hc => Or.inr hc⟩
  | some dit =>
    cases dit with
    | nil =>
      rw [ptdir_percall_done host sessions fcinfo funcctx [] hs (Or.inl rfl)]
      exact ⟨hnext, rfl, fun ctx hc => by cases hc⟩
    | cons entry rest =>
      by_cases hlim : funcctx.call_cntr < funcctx.max_calls
      · cases hinfo : get_file_info host.format_time entry with
        | error what =>
          rw [ptdir_percall_throw host sessions fcinfo funcctx entry rest what hs hlim hinfo]
          exact ⟨hnext, rfl, fun ctx hc => Or.inr hc⟩
        | ok info =>
          rw [ptdir_percall_next host sessions fcinfo funcctx entry rest info hs hlim hinfo]
          refine ⟨hnext, rfl, ?_⟩
          intro ctx hc
          left
          simp only [Option.some.injEq] at hc
          rw [← hc]
          exact haddr
      · rw [ptdir_percall_done host sessions fcinfo funcctx _ hs (Or.inr hlim)]
        exact ⟨hnext, rfl, fun ctx hc => by cases hc⟩

/-- An invocation keeps the address its session allocates contexts at, keeps
the path argument, and leaves a context at that same address if it leaves
one. -/
theorem ptdir_keeps_owner (host : Host) (sessions : session_map) (fcinfo : FunctionCallInfo)
    (h : Handle) (hnext : fcinfo.next_alloc = h)
    (hctx : ∀ ctx, fcinfo.fn_extra = some ctx → ctx.addr = h) :
    (ptdir host sessions fcinfo).2.2.next_alloc = h ∧
    (ptdir host sessions fcinfo).2.2.directory_path = fcinfo.directory_path ∧
    (∀ ctx, (ptdir host sessions fcinfo).2.2.fn_extra = some ctx → ctx.addr = h) := by
  cases hx : fcinfo.fn_extra with
  | some funcctx =>
    rw [ptdir_of_running host sessions fcinfo funcctx hx]
    obtain ⟨h1, h2, h3⟩ :=
      ptdir_percall_keeps_owner host sessions fcinfo funcctx h hnext (hctx funcctx hx)
    refine ⟨h1, h2, ?_⟩
    intro ctx hc
    rcases h3 ctx hc with h4 | h4
    · exact h4
    · exact hctx ctx h4
  | none =>
    subst hnext
    have hnext : fcinfo.next_alloc = fcinfo.next_alloc := rfl
    by_cases hcomp : fcinfo.result_composite = true
    · cases hopen : host.open_directory fcinfo.directory_path with
      | error what => simp [ptdir, hx, hcomp, hopen, SRF_FIRSTCALL_INIT]
      | ok es =>
        cases hreg : sessions fcinfo.next_alloc with
        | some old =>
          simp [ptdir, hx, hcomp, hopen, SRF_FIRSTCALL_INIT,
            session_map.emplace_present sessions fcinfo.next_alloc es old hreg]
        | none =>
          rw [ptdir_of_first host sessions fcinfo es hx hcomp hopen hreg]
          obtain ⟨h1, h2, h3⟩ :=
            ptdir_percall_keeps_owner host (sessions.assign fcinfo.next_alloc es)
              { fcinfo with
                fn_extra := some { addr := fcinfo.next_alloc, call_cntr := 0,
                                   max_calls := to_unsigned host.counter_bits fcinfo.row_limit } }
              { addr := fcinfo.next_alloc, call_cntr := 0,
                max_calls := to_unsigned host.counter_bits fcinfo.row_limit }
              fcinfo.next_alloc hnext hnext
          refine ⟨h1, h2, ?_⟩
          intro ctx hc
          rcases h3 ctx hc with h4 | h4
          · exact h4
          · simp only [Option.some.injEq] at h4
            rw [← h4]
    · simp [ptdir, hx, hcomp, SRF_FIRSTCALL_INIT]

theorem handle_of_owner (fcinfo : FunctionCallInfo) (h : Handle)
    (hnext : fcinfo.next_alloc = h)
    (hctx : ∀ ctx, fcinfo.fn_extra = some ctx → ctx.addr = h) : fcinfo.handle = h := by
  cases hx : fcinfo.fn_extra with
  | some funcctx => simpa [FunctionCallInfo.handle, hx] using hctx funcctx hx
  | none => simpa [FunctionCallInfo.handle, hx] using hnext

/-- In an interleaved run of two sessions with different handles, each session
sees the outcomes it sees when it runs alone from any `sessions` map that
holds the same cursor under its handle. -/
theorem interleave_eq_drive (host : Host) (ha hb : Handle) (hne : ha ≠ hb)
    (schedule : List Bool) :
    ∀ (sessions sa sb : session_map) (fa fb : FunctionCallInfo),
      fa.next_alloc = ha → (∀ ctx, fa.fn_extra = some ctx → ctx.addr = ha) →
      fb.next_alloc = hb → (∀ ctx, fb.fn_extra = some ctx → ctx.addr = hb) →
      sessions ha = sa ha → sessions hb = sb hb →
      (interleave host schedule sessions fa fb).1 =
        (drive host (schedule.count true) sa fa).1 ∧
      (interleave host schedule sessions fa fb).2.1 =
        (drive host (schedule.count false) sb fb).1 := by
  induction schedule with
  | nil =>
    intro sessions sa sb fa fb _ _ _ _ _ _
    exact ⟨rfl, rfl⟩
  | cons turn schedule ih =>
    intro sessions sa sb fa fb han hac hbn hbc hsa hsb
    have hha := handle_of_owner fa ha han hac
    have hhb := handle_of_owner fb hb hbn hbc
    cases turn with
    | true =>
      have hloc := ptdir_local host sessions sa fa (by rw [hha]; exact hsa)
      have hown := ptdir_keeps_owner host sessions fa ha han hac
      have hframe := ptdir_frame host sessions fa hb (by rw [hha]; exact fun e => hne e.symm)
      rw [hha] at hloc
      have := ih (ptdir host sessions fa).2.1 (ptdir host sa fa).2.1 sb
        (ptdir host sessions fa).2.2 fb hown.1 hown.2.2 hbn hbc hloc.2.2
        (by rw [hframe]; exact hsb)
      simp only [interleave, drive, List.count_cons_self, List.count_cons_of_ne, ne_eq,
        Bool.false_eq_true, not_false_eq_true]
      rw [this.1, this.2, hloc.1, hloc.2.1]
      exact ⟨rfl, rfl⟩
    | false =>
      have hloc := ptdir_local host sessions sb fb (by rw [hhb]; exact hsb)
      have hown := ptdir_keeps_owner host sessions fb hb hbn hbc
      have hframe := ptdir_frame host sessions fb ha (by rw [hhb]; exact hne)
      rw [hhb] at hloc
      have := ih (ptdir host sessions fb).2.1 sa (ptdir host sb fb).2.1
        fa (ptdir host sessions fb).2.2 han hac hown.1 hown.2.2
        (by rw [hframe]; exact hsa) hloc.2.2
      simp only [interleave, drive, List.count_cons_self, List.count_cons_of_ne, ne_eq,
        Bool.true_eq_false, not_false_eq_true]
      rw [this.1, this.2, hloc.1, hloc.2.1]
      exact ⟨rfl, rfl⟩

theorem ptdir_percall_invariant (host : Host) (es : List directory_entry) (h : Handle)
    (sessions : session_map) (fcinfo : FunctionCallInfo) (funcctx : FuncCallContext)
    (hnext : fcinfo.next_alloc = h) (haddr : funcctx.addr = h)
    (hx : fcinfo.fn_extra = some funcctx)
    (htail : ∀ cur, sessions h = some cur → ∃ before, before ++ cur = es)
    (hopen : host.open_directory fcinfo.directory_path = .ok es) :
    session_invariant host es h (ptdir_percall host sessions fcinfo funcctx).2.1
      (ptdir_percall host sessions fcinfo funcctx).2.2 ∧
    (∀ row, (ptdir_percall host sessions fcinfo funcctx).1 = .next row →
      ∃ e ∈ es, ∃ info, get_file_info host.format_time e = .ok info ∧ row = form_row info) := by
  subst haddr
  cases hs : sessions funcctx.addr with
  | none =>
    rw [ptdir_percall_unknown host sessions fcinfo funcctx hs]
    refine ⟨⟨hnext, ?_, ?_, htail, hopen⟩, ?_⟩
    · intro ctx hc
      rw [hx] at hc
      cases hc
      rfl
    · intro hn
      rw [hx] at hn
      cases hn
    · intro row hrow
      cases hrow
  | some dit =>
    have hdone : session_invariant host es funcctx.addr (sessions.erase funcctx.addr)
        { fcinfo with fn_extra := none } := by
      refine ⟨hnext, ?_, ?_, ?_, hopen⟩
      · intro ctx hc
        cases hc
      · intro _
        exact session_map.erase_same sessions funcctx.addr
      · intro cur hcur
        rw [session_map.erase_same] at hcur
        cases hcur
    cases dit with
    | nil =>
      rw [ptdir_percall_done host sessions fcinfo funcctx [] hs (Or.inl rfl)]
      exact ⟨hdone, fun row hrow => by cases hrow⟩
    | cons entry rest =>
      obtain ⟨before, hbefore⟩ := htail (entry :: rest) hs
      by_cases hlim : funcctx.call_cntr < funcctx.max_calls
      · cases hinfo : get_file_info host.format_time entry with
        | error what =>
          rw [ptdir_percall_throw host sessions fcinfo funcctx entry rest what hs hlim hinfo]
          refine ⟨⟨hnext, ?_, ?_, htail, hopen⟩, ?_⟩
          · intro ctx hc
            rw [hx] at hc
            cases hc
            rfl
          · intro hn
            rw [hx] at hn
            cases hn
          · intro row hrow
            cases hrow
        | ok info =>
          rw [ptdir_percall_next host sessions fcinfo funcctx entry rest info hs hlim hinfo]
          refine ⟨⟨hnext, ?_, ?_, ?_, hopen⟩, ?_⟩
          · intro ctx hc
            simp only [Option.some.injEq] at hc
            rw [← hc]
          · intro hn
            cases hn
          · intro cur hcur
            have hcur2 : sessions.assign funcctx.addr rest funcctx.addr = some cur := hcur
            rw [session_map.assign_same] at hcur2
            cases hcur2
            exact ⟨before ++ [entry], by rw [← hbefore]; simp⟩
          · intro row hrow
            cases hrow
            refine ⟨entry, ?_, info, hinfo, rfl⟩
            rw [← hbefore]
            simp
      · rw [ptdir_percall_done host sessions fcinfo funcctx _ hs (Or.inr hlim)]
        exact ⟨hdone, fun row hrow => by cases hrow⟩

/-- One invocation keeps the session invariant, and a row it returns is the
row of an entry of the session's own enumeration. -/
theorem ptdir_invariant (host : Host) (es : List directory_entry) (h : Handle)
    (sessions : session_map) (fcinfo : FunctionCallInfo)
    (hinv : session_invariant host es h sessions fcinfo) :
    session_invariant host es h (ptdir host sessions fcinfo).2.1
      (ptdir host sessions fcinfo).2.2 ∧
    (∀ row, (ptdir host sessions fcinfo).1 = .next row →
      ∃ e ∈ es, ∃ info, get_file_info host.format_time e = .ok info ∧ row = form_row info) := by
  obtain ⟨hnext, hctx, hnone, htail, hopen⟩ := hinv
  cases hx : fcinfo.fn_extra with
  | some funcctx =>
    rw [ptdir_of_running host sessions fcinfo funcctx hx]
    exact ptdir_percall_invariant host es h sessions fcinfo funcctx hnext (hctx funcctx hx) hx
      htail hopen
  | none =>
    subst hnext
    have hfresh := hnone hx
    by_cases hcomp : fcinfo.result_composite = true
    · rw [ptdir_of_first host sessions fcinfo es hx hcomp hopen hfresh]
      refine ptdir_percall_invariant host es fcinfo.next_alloc
        (sessions.assign fcinfo.next_alloc es)
        { fcinfo with
          fn_extra := some { addr := fcinfo.next_alloc, call_cntr := 0,
                             max_calls := to_unsigned host.counter_bits fcinfo.row_limit } }
        { addr := fcinfo.next_alloc, call_cntr := 0,
          max_calls := to_unsigned host.counter_bits fcinfo.row_limit } rfl rfl rfl ?_ hopen
      intro cur hcur
      rw [session_map.assign_same] at hcur
      cases hcur
      exact ⟨[], rfl⟩
    · have hr : ptdir host sessions fcinfo =
          (.error "function returning record called in context that cannot accept type record",
            sessions,
            { fcinfo with
              fn_extra := some { SRF_FIRSTCALL_INIT fcinfo with
                max_calls := to_unsigned host.counter_bits fcinfo.row_limit } }) := by
        simp [ptdir, hx, hcomp]
      rw [hr]
      refine ⟨⟨rfl, ?_, ?_, htail, hopen⟩, ?_⟩
      · intro ctx hc
        simp only [Option.some.injEq] at hc
        rw [← hc]
        rfl
      · intro hn
        cases hn
      · intro row hrow
        cases hrow

/-- Every row a session returns while it runs alone is the row of an entry of
its own enumeration. -/
theorem drive_rows_from_directory (host : Host) (es : List directory_entry) (h : Handle)
    (n : Nat) :
    ∀ (sessions : session_map) (fcinfo : FunctionCallInfo),
      session_invariant host es h sessions fcinfo →
      ∀ row, Outcome.next row ∈ (drive host n sessions fcinfo).1 →
        ∃ e ∈ es, ∃ info, get_file_info host.format_time e = .ok info ∧ row = form_row info := by
  induction n with
  | zero =>
    intro sessions fcinfo _ row hrow
    simp [drive] at hrow
  | succ n ih =>
    intro sessions fcinfo hinv row hrow
    obtain ⟨hinv2, hrec⟩ := ptdir_invariant host es h sessions fcinfo hinv
    simp only [drive, List.mem_cons] at hrow
    rcases hrow with hrow | hrow
    · exact hrec row hrow.symm
    · exact ih _ _ hinv2 row hrow

/-- A first call of a session on a map that holds nothing under its handle
starts from a state that satisfies the session invariant. -/
theorem session_invariant_of_fresh (host : Host) (es : List directory_entry)
    (sessions : session_map) (fcinfo : FunctionCallInfo)
    (hfirst : fcinfo.fn_extra = none) (hfresh : sessions fcinfo.next_alloc = none)
    (hopen : host.open_directory fcinfo.directory_path = .ok es) :
    session_invariant host es fcinfo.next_alloc sessions fcinfo := by
  refine ⟨rfl, ?_, fun _ => hfresh, ?_, hopen⟩
  · intro ctx hc
    rw [hfirst] at hc
    cases hc
  · intro cur hcur
    rw [hfresh] at hcur
    cases hcur

/-- C2: two sessions opened by first calls at different handles `ha` and `hb`,
over directories with enumerations `esa` and `esb`, and then invoked in any
interleaving: every row the first one returns is the row of an entry of `esa`
and every row the second one returns is the row of an entry of `esb`; each
session sees exactly the outcomes it sees when it runs alone; and a single
invocation made under one handle leaves the cursor registered under every
other handle unchanged, its result depending on the map only through the
cursor under its own handle. -/
theorem interleaved_sessions_do_not_mix (host : Host) (sessions : session_map)
    (fa fb : FunctionCallInfo) (esa esb : List directory_entry)
    (hne : fa.next_alloc ≠ fb.next_alloc)
    (hfa : fa.fn_extra = none) (hfb : fb.fn_extra = none)
    (hsa : sessions fa.next_alloc = none) (hsb : sessions fb.next_alloc = none)
    (hoa : host.open_directory fa.directory_path = .ok esa)
    (hob : host.open_directory fb.directory_path = .ok esb)
    (schedule : List Bool) :
    (∀ row, Outcome.next row ∈ (interleave host schedule sessions fa fb).1 →
      ∃ e ∈ esa, ∃ info, get_file_info host.format_time e = .ok info ∧ row = form_row info) ∧
    (∀ row, Outcome.next row ∈ (interleave host schedule sessions fa fb).2.1 →
      ∃ e ∈ esb, ∃ info, get_file_info host.format_time e = .ok info ∧ row = form_row info) ∧
    (interleave host schedule sessions fa fb).1 =
      (drive host (schedule.count true) sessions fa).1 ∧
    (interleave host schedule sessions fa fb).2.1 =
      (drive host (schedule.count false) sessions fb).1 ∧
    (∀ (s : session_map) (fcinfo : FunctionCallInfo) (h : Handle), h ≠ fcinfo.handle →
      (ptdir host s fcinfo).2.1 h = s h) ∧
    (∀ (s1 s2 : session_map) (fcinfo : FunctionCallInfo),
      s1 fcinfo.handle = s2 fcinfo.handle →
      (ptdir host s1 fcinfo).1 = (ptdir host s2 fcinfo).1 ∧
      (ptdir host s1 fcinfo).2.1 fcinfo.handle = (ptdir host s2 fcinfo).2.1 fcinfo.handle) := by
  have hfa2 : ∀ ctx, fa.fn_extra = some ctx → ctx.addr = fa.next_alloc := by
    intro ctx hc
    rw [hfa] at hc
    cases hc
  have hfb2 : ∀ ctx, fb.fn_extra = some ctx → ctx.addr = fb.next_alloc := by
    intro ctx hc
    rw [hfb] at hc
    cases hc
  obtain ⟨h1, h2⟩ := interleave_eq_drive host fa.next_alloc fb.next_alloc hne schedule
    sessions sessions sessions fa fb rfl hfa2 rfl hfb2 rfl rfl
  refine ⟨?_, ?_, h1, h2, ?_, ?_⟩
  · rw [h1]
    exact drive_rows_from_directory host esa fa.next_alloc _ sessions fa
      (session_invariant_of_fresh host esa sessions fa hfa hsa hoa)
  · rw [h2]
    exact drive_rows_from_directory host esb fb.next_alloc _ sessions fb
      (session_invariant_of_fresh host esb sessions fb hfb hsb hob)
  · intro s fcinfo h hh
    exact ptdir_frame host s fcinfo h hh
  · intro s1 s2 fcinfo heq
    have := ptdir_local host s1 s2 fcinfo heq
    exact ⟨this.1, this.2.2⟩

/-! ## A whole session -/

theorem two_pow_32_le (bits : Nat) (hbits : 32 ≤ bits) : 2 ^ 32 ≤ 2 ^ bits :=
  Nat.pow_le_pow_right (by decide) hbits

theorem to_unsigned_lt (bits : Nat) (v : Int) : to_unsigned bits v < 2 ^ bits := by
  unfold to_unsigned
  have hpos : (0 : Int) < (2 : Int) ^ bits := by positivity
  have h1 := Int.emod_lt_of_pos v hpos
  have h2 := Int.emod_nonneg v (ne_of_gt hpos)
  have h3 : ((v % (2 : Int) ^ bits).toNat : Int) = v % (2 : Int) ^ bits := Int.toNat_of_nonneg h2
  have h4 : (((v % (2 : Int) ^ bits).toNat : Nat) : Int) < ((2 ^ bits : Nat) : Int) := by
    rw [h3]
    push_cast
    exact h1
  exact_mod_cast h4

theorem to_unsigned_of_nonneg (bits : Nat) (hbits : 32 ≤ bits) (L : Nat) (hL : L < 2 ^ 31) :
    to_unsigned bits (L : Int) = L := by
  unfold to_unsigned
  have hp := two_pow_32_le bits hbits
  have hlt : (L : Int) < (2 : Int) ^ bits := by
    have : L < 2 ^ bits := by omega
    exact_mod_cast this
  rw [Int.emod_eq_of_lt (Int.natCast_nonneg L) hlt]
  simp

theorem to_unsigned_of_neg (bits : Nat) (hbits : 32 ≤ bits) (v : Int)
    (hneg : v < 0) (hmin : -(2 : Int) ^ 31 ≤ v) :
    (to_unsigned bits v : Int) = (2 : Int) ^ bits + v ∧ 2 ^ 31 ≤ to_unsigned bits v := by
  have hp := two_pow_32_le bits hbits
  have hpz : ((2 : Int) ^ 32) ≤ (2 : Int) ^ bits := by exact_mod_cast hp
  have h0 : (0 : Int) ≤ v + (2 : Int) ^ bits := by
    have : ((2 : Int) ^ 31) ≤ (2 : Int) ^ 32 := by norm_num
    linarith
  have h1 : v + (2 : Int) ^ bits < (2 : Int) ^ bits := by linarith
  have hmod : v % (2 : Int) ^ bits = v + (2 : Int) ^ bits := by
    rw [← Int.add_emod_self]
    exact Int.emod_eq_of_lt h0 h1
  have hcast : (to_unsigned bits v : Int) = (2 : Int) ^ bits + v := by
    unfold to_unsigned
    rw [hmod, Int.toNat_of_nonneg h0]
    ring
  refine ⟨hcast, ?_⟩
  have : ((2 ^ 31 : Nat) : Int) ≤ (to_unsigned bits v : Int) := by
    rw [hcast]
    push_cast
    have : ((2 : Int) ^ 32) = 2 * (2 : Int) ^ 31 := by norm_num
    linarith
  exact_mod_cast this

/-- A registered session returns the rows of the next
`min (remaining entries) (max_calls - call_cntr)` entries, one per invocation
and in order, then end-of-data, and is then no longer registered, provided
those entries classify; the entries behind them are never classified. -/
theorem drive_active (host : Host) (info_of : directory_entry → file_info_type) (h : Handle)
    (M : Nat) (hM : M < 2 ^ host.counter_bits) :
    ∀ (cur : List directory_entry) (c : Nat) (sessions : session_map)
      (fcinfo : FunctionCallInfo),
      fcinfo.fn_extra = some { addr := h, call_cntr := c, max_calls := M } →
      sessions h = some cur →
      (∀ e ∈ cur.take (min cur.length (M - c)),
        get_file_info host.format_time e = .ok (info_of e)) →
      c ≤ M →
      drive host (min cur.length (M - c) + 1) sessions fcinfo =
        ((cur.take (min cur.length (M - c))).map
            (fun e => Outcome.next (form_row (info_of e))) ++ [Outcome.done],
          sessions.erase h, { fcinfo with fn_extra := none }) := by
  intro cur
  induction cur with
  | nil =>
    intro c sessions fcinfo hx hs _ _
    have h1 : ptdir host sessions fcinfo =
        (.done, sessions.erase h, { fcinfo with fn_extra := none }) := by
      rw [ptdir_of_running host sessions fcinfo _ hx]
      exact ptdir_percall_done host sessions fcinfo _ [] hs (Or.inl rfl)
    simp [drive, h1]
  | cons entry rest ih =>
    intro c sessions fcinfo hx hs hcls hc
    by_cases hlim : c < M
    · have hk : min (entry :: rest).length (M - c) = min rest.length (M - (c + 1)) + 1 := by
        simp only [List.length_cons]
        omega
      have hmod : (c + 1) % 2 ^ host.counter_bits = c + 1 := Nat.mod_eq_of_lt (by omega)
      have h1 : ptdir host sessions fcinfo =
          (.next (form_row (info_of entry)), sessions.assign h rest,
            { fcinfo with
              fn_extra := some { addr := h, call_cntr := c + 1, max_calls := M } }) := by
        rw [ptdir_of_running host sessions fcinfo _ hx]
        rw [ptdir_percall_next host sessions fcinfo _ entry rest (info_of entry) hs hlim
          (hcls entry (by rw [hk, List.take_succ_cons]; exact List.mem_cons_self _ _))]
        simp only [hmod]
      have h2 := ih (c + 1) (sessions.assign h rest)
        { fcinfo with fn_extra := some { addr := h, call_cntr := c + 1, max_calls := M } }
        rfl (session_map.assign_same sessions h rest)
        (fun e he => hcls e
          (by rw [hk, List.take_succ_cons]; exact List.mem_cons_of_mem _ he))
        (by omega)
      rw [hk, drive, h1]
      simp only [h2, List.take_succ_cons, List.map_cons, List.cons_append,
        session_map.erase_assign]
    · have hk : min (entry :: rest).length (M - c) = 0 := by
        have : M - c = 0 := by omega
        rw [this]
        exact Nat.min_zero _
      have h1 : ptdir host sessions fcinfo =
          (.done, sessions.erase h, { fcinfo with fn_extra := none }) := by
        rw [ptdir_of_running host sessions fcinfo _ hx]
        exact ptdir_percall_done host sessions fcinfo _ _ hs (Or.inr hlim)
      rw [hk]
      simp [drive, h1]

/-- A fresh session over an enumeration returns the rows of the first
`min N max_calls` entries, then end-of-data, where `max_calls` is the row limit
converted to the unsigned counter type, provided those entries classify. -/
theorem drive_fresh (host : Host) (info_of : directory_entry → file_info_type)
    (sessions : session_map) (fcinfo : FunctionCallInfo) (es : List directory_entry)
    (hfirst : fcinfo.fn_extra = none) (hcomp : fcinfo.result_composite = true)
    (hopen : host.open_directory fcinfo.directory_path = .ok es)
    (hfresh : sessions fcinfo.next_alloc = none)
    (hcls : ∀ e ∈ es.take (min es.length (to_unsigned host.counter_bits fcinfo.row_limit)),
      get_file_info host.format_time e = .ok (info_of e)) :
    drive host (min es.length (to_unsigned host.counter_bits fcinfo.row_limit) + 1)
        sessions fcinfo =
      ((es.take (min es.length (to_unsigned host.counter_bits fcinfo.row_limit))).map
          (fun e => Outcome.next (form_row (info_of e))) ++ [Outcome.done],
        sessions.erase fcinfo.next_alloc, fcinfo) := by
  have hstep : ptdir host sessions fcinfo =
      ptdir host (sessions.assign fcinfo.next_alloc es)
        { fcinfo with
          fn_extra := some { addr := fcinfo.next_alloc, call_cntr := 0,
                             max_calls := to_unsigned host.counter_bits fcinfo.row_limit } } := by
    rw [ptdir_of_first host sessions fcinfo es hfirst hcomp hopen hfresh]
    rw [ptdir_of_running host _ _ _ rfl]
  have h2 := drive_active host info_of fcinfo.next_alloc
    (to_unsigned host.counter_bits fcinfo.row_limit) (to_unsigned_lt _ _) es 0
    (sessions.assign fcinfo.next_alloc es)
    { fcinfo with
      fn_extra := some { addr := fcinfo.next_alloc, call_cntr := 0,
                         max_calls := to_unsigned host.counter_bits fcinfo.row_limit } }
    rfl (session_map.assign_same sessions _ es) (by simpa using hcls) (Nat.zero_le _)
  simp only [Nat.sub_zero] at h2
  rw [drive, hstep]
  rw [drive] at h2
  rw [h2]
  simp only [session_map.erase_assign]
  cases fcinfo
  simp only at hfirst
  subst hfirst
  rfl

/-- C1: a fresh session over a directory whose enumeration `es` has N entries,
with a row limit L that is a non-negative 32-bit value and every
classification it performs succeeding (those of the first min(N, L) entries;
the entries behind the limit are never classified), returns a row on each of
its first min(N, L) invocations and end-of-data on the invocation after
those. -/
theorem session_returns_min_rows (host : Host) (info_of : directory_entry → file_info_type)
    (sessions : session_map) (fcinfo : FunctionCallInfo) (es : List directory_entry) (L : Nat)
    (hbits : 32 ≤ host.counter_bits)
    (hfirst : fcinfo.fn_extra = none) (hcomp : fcinfo.result_composite = true)
    (hopen : host.open_directory fcinfo.directory_path = .ok es)
    (hfresh : sessions fcinfo.next_alloc = none)
    (hcls : ∀ e ∈ es.take (min es.length L),
      get_file_info host.format_time e = .ok (info_of e))
    (hlimit : fcinfo.row_limit = (L : Int)) (hL : L < 2 ^ 31) :
    ∃ rows : List Row, rows.length = min es.length L ∧
      (drive host (min es.length L + 1) sessions fcinfo).1 =
        rows.map Outcome.next ++ [Outcome.done] := by
  have hM : to_unsigned host.counter_bits fcinfo.row_limit = L := by
    rw [hlimit]
    exact to_unsigned_of_nonneg host.counter_bits hbits L hL
  have h := drive_fresh host info_of sessions fcinfo es hfirst hcomp hopen hfresh
    (by rw [hM]; exact hcls)
  rw [hM] at h
  refine ⟨(es.take (min es.length L)).map (fun e => form_row (info_of e)), ?_, ?_⟩
  · simp
  · rw [h]
    simp [List.map_map, Function.comp_def]

/-- C8, counterexample: on a host with 64-bit counters, the first call of a
session over the two-entry directory `/a` with row limit -1 is not rejected:
it stores 2^64 - 1 in `max_calls` and returns the row of the first entry. -/
theorem negative_row_limit_returns_row :
    (ptdir sample_host no_sessions (first_call (-1) "/a" 7)).1 =
      Outcome.next
        { fattr := some "-rw-r--r--", fsize := some 10,
          ftime := some "01/01/70 00:00:00.000 UTC", ftype := none, fname := some "a.txt" } ∧
    (ptdir sample_host no_sessions (first_call (-1) "/a" 7)).2.2.fn_extra =
      some { addr := 7, call_cntr := 1, max_calls := 18446744073709551615 } ∧
    (drive sample_host 3 no_sessions (first_call (-1) "/a" 7)).1 =
      [ Outcome.next (form_row (sample_info sample_file)),
        Outcome.next (form_row (sample_info sample_link)),
        Outcome.done ] := by
  refine ⟨?_, ?_, ?_⟩ <;> decide

/-- C8, amended: the first call does not validate the row limit. It converts
the 32-bit argument to the unsigned counter `max_calls`, so a negative limit v
becomes 2^bits + v, which is at least 2^31; a fresh session with a negative
limit over an enumeration `es` whose entries all classify returns the rows of
the first min(N, 2^bits + v) entries and then end-of-data, and when `es` is
not empty its first call returns the row of the first entry. -/
theorem negative_row_limit_is_large_bound (host : Host)
    (info_of : directory_entry → file_info_type)
    (sessions : session_map) (fcinfo : FunctionCallInfo) (es : List directory_entry)
    (hbits : 32 ≤ host.counter_bits)
    (hfirst : fcinfo.fn_extra = none) (hcomp : fcinfo.result_composite = true)
    (hopen : host.open_directory fcinfo.directory_path = .ok es)
    (hfresh : sessions fcinfo.next_alloc = none)
    (hcls : ∀ e ∈ es, get_file_info host.format_time e = .ok (info_of e))
    (hneg : fcinfo.row_limit < 0) (hmin : -(2 : Int) ^ 31 ≤ fcinfo.row_limit) :
    ((to_unsigned host.counter_bits fcinfo.row_limit : Nat) : Int) =
      (2 : Int) ^ host.counter_bits + fcinfo.row_limit ∧
    2 ^ 31 ≤ to_unsigned host.counter_bits fcinfo.row_limit ∧
    (drive host (min es.length (to_unsigned host.counter_bits fcinfo.row_limit) + 1)
        sessions fcinfo).1 =
      (es.take (min es.length (to_unsigned host.counter_bits fcinfo.row_limit))).map
        (fun e => Outcome.next (form_row (info_of e))) ++ [Outcome.done] ∧
    (∀ e rest, es = e :: rest →
      (ptdir host sessions fcinfo).1 = Outcome.next (form_row (info_of e))) := by
  obtain ⟨h1, h2⟩ := to_unsigned_of_neg host.counter_bits hbits fcinfo.row_limit hneg hmin
  refine ⟨h1, h2, ?_, ?_⟩
  · rw [drive_fresh host info_of sessions fcinfo es hfirst hcomp hopen hfresh
      (fun e he => hcls e (List.mem_of_mem_take he))]
  · intro e rest hes
    subst hes
    rw [ptdir_of_first host sessions fcinfo (e :: rest) hfirst hcomp hopen hfresh]
    have hpos : (0 : Nat) < to_unsigned host.counter_bits fcinfo.row_limit := by omega
    rw [ptdir_percall_next host (sessions.assign fcinfo.next_alloc (e :: rest)) _
      { addr := fcinfo.next_alloc, call_cntr := 0,
        max_calls := to_unsigned host.counter_bits fcinfo.row_limit } e rest (info_of e)
      (session_map.assign_same sessions _ _) hpos (hcls e (List.mem_cons_self _ _))]

/-! ## Special files -/

/-- The type switch alone: the string it yields is not empty exactly for the
four special kinds, and then the row carries it in a non-null column. -/
theorem ftype_str_ne_empty_iff (t : file_type) (fattr ftime fname : String) (fsize : Int) :
    ((form_row { fattr := fattr, fsize := fsize, ftime := ftime, ftype := ftype_str t,
                 fname := fname }).ftype ≠ none ↔
      (t = file_type.block ∨ t = file_type.character ∨ t = file_type.fifo ∨
        t = file_type.socket)) ∧
    (ftype_str t ≠ "" ↔
      (t = file_type.block ∨ t = file_type.character ∨ t = file_type.fifo ∨
        t = file_type.socket)) := by
  cases t <;> simp [form_row, ftype_str] <;> decide

/-- On an entry for which `file_size()` succeeds only for regular files, every
tuple `get_file_info` returns has an empty type string, so the type column of
every row formed from it is null: the four special kinds never reach a row. -/
theorem type_column_null_of_returned (format_time : Int → String) (dit : directory_entry)
    (info : file_info_type) (hlaw : file_size_needs_regular_file dit)
    (h : get_file_info format_time dit = .ok info) :
    info.ftype = "" ∧ (form_row info).ftype = none := by
  obtain ⟨st, target, tp, fname, size, h1, h2, _, _, h5, h6⟩ :=
    get_file_info_inv format_time dit info h
  obtain ⟨target2, ht2, hreg⟩ := hlaw size h5
  rw [h2] at ht2
  cases ht2
  have hty : ftype_str st.type = "" := by
    cases hss : dit.symlink_status with
    | error what => simp [selected_status, directory_entry.is_symlink, hss] at h1
    | ok s =>
      by_cases hlink : s.type = file_type.symlink
      · have hsel : selected_status dit = .ok s := by
          simp [selected_status, directory_entry.is_symlink, hss, hlink]
        rw [hsel] at h1
        cases h1
        rw [hlink]
        rfl
      · have hsel : selected_status dit = .ok target := by
          simp [selected_status, directory_entry.is_symlink, hss, hlink, h2]
        rw [hsel] at h1
        cases h1
        rw [hreg]
        rfl
  subst h6
  simp [form_row, hty]

/-- C5, the code at the failing input: for the character device `tty` the
selected status has type character and the type switch yields `S_ISCHR`, but
`get_file_info` returns no tuple: it throws at `file_size()` (line 135). A
session over the directory `/b`, which holds that device, ends its first call
with an error, returns no row on any call, and stays registered at the
device; so no row with a non-null type column is emitted for it. -/
theorem special_file_is_not_reported :
    selected_status sample_device =
      .ok { type := file_type.character, permissions := 0o620 } ∧
    ftype_str file_type.character = "S_ISCHR" ∧
    get_file_info sample_host.format_time sample_device =
      .error "filesystem error: cannot get file size: Operation not supported [tty]" ∧
    (ptdir sample_host no_sessions (first_call 10 "/b" 9)).1 =
      Outcome.error (thrown
        "filesystem error: cannot get file size: Operation not supported [tty]") ∧
    (ptdir sample_host no_sessions (first_call 10 "/b" 9)).2.1 9 = some [sample_device] ∧
    (drive sample_host 3 no_sessions (first_call 10 "/b" 9)).1 =
      List.replicate 3 (Outcome.error (thrown
        "filesystem error: cannot get file size: Operation not supported [tty]")) :=
  ⟨rfl, rfl, rfl, by decide, rfl, by decide⟩

/-! ## Symbolic links -/

/-- For an entry that is a symbolic link, a tuple returned by `get_file_info`
has its permission characters computed from `symlink_status()` and its name
made of the file name, the text ` --> ` and the link target as read. -/
theorem get_file_info_symlink (format_time : Int → String) (dit : directory_entry)
    (st : file_status) (info : file_info_type)
    (hst : dit.symlink_status = .ok st) (hlink : st.type = file_type.symlink)
    (h : get_file_info format_time dit = .ok info) :
    ∃ target link_target,
      dit.status = .ok target ∧ dit.read_symlink = .ok link_target ∧
      info.fattr = fattr_str (decide (target.type = file_type.directory)) st.permissions ∧
      info.fname = dit.filename ++ " --> " ++ link_target := by
  obtain ⟨st2, target, tp, fname, size, h1, h2, _, h4, _, h6⟩ :=
    get_file_info_inv format_time dit info h
  have hsel : selected_status dit = .ok st := by
    simp [selected_status, directory_entry.is_symlink, hst, hlink]
  rw [hsel] at h1
  cases h1
  cases hread : dit.read_symlink with
  | error what =>
    simp [fname_str, directory_entry.is_symlink, hst, hlink, hread] at h4
  | ok link_target =>
    simp [fname_str, directory_entry.is_symlink, hst, hlink, hread, str_2_utf8] at h4
    refine ⟨target, link_target, h2, rfl, ?_, ?_⟩
    · rw [h6]
    · rw [h6, ← h4]

/-- For an entry that is not a symbolic link, a tuple returned by
`get_file_info` has the file name alone as its name, and its permission
characters are computed from `status()`. -/
theorem get_file_info_not_symlink (format_time : Int → String) (dit : directory_entry)
    (st : file_status) (info : file_info_type)
    (hst : dit.symlink_status = .ok st) (hlink : st.type ≠ file_type.symlink)
    (h : get_file_info format_time dit = .ok info) :
    ∃ target,
      dit.status = .ok target ∧
      info.fattr = fattr_str (decide (target.type = file_type.directory)) target.permissions ∧
      info.fname = dit.filename := by
  obtain ⟨st2, target, tp, fname, size, h1, h2, _, h4, _, h6⟩ :=
    get_file_info_inv format_time dit info h
  have hsel : selected_status dit = .ok target := by
    simp [selected_status, directory_entry.is_symlink, hst, hlink, h2]
  rw [hsel] at h1
  cases h1
  simp [fname_str, directory_entry.is_symlink, hst, hlink, str_2_utf8] at h4
  refine ⟨_, h2, ?_, ?_⟩
  · rw [h6]
  · rw [h6, ← h4]

/-- C6, the code at the failing input: for the broken link `dangling`, whose
own status and target text are readable, `get_file_info` returns no tuple but
throws at `last_write_time()`; a session over the directory `/c`, which
starts with that link, ends its first call with an error and returns no row,
and the session stays registered at the link, so no later call gets past it. -/
theorem broken_link_is_not_reported :
    get_file_info sample_host.format_time broken_link =
      .error "filesystem error: cannot get file time: No such file or directory [dangling]" ∧
    (ptdir sample_host no_sessions (first_call 10 "/c" 7)).1 =
      Outcome.error (thrown
        "filesystem error: cannot get file time: No such file or directory [dangling]") ∧
    (drive sample_host 3 no_sessions (first_call 10 "/c" 7)).1 =
      List.replicate 3 (Outcome.error (thrown
        "filesystem error: cannot get file time: No such file or directory [dangling]")) :=
  ⟨rfl, by decide, by decide⟩

/-! ## The theorems at concrete inputs -/

/-- On `sample_host` both entries of the directory `/a` classify. -/
theorem sample_a_classifies :
    ∀ e ∈ [sample_file, sample_link],
      get_file_info sample_host.format_time e = .ok (sample_info e) := by
  intro e he
  simp only [List.mem_cons, List.mem_singleton, List.not_mem_nil, or_false] at he
  rcases he with rfl | rfl <;> rfl

/-- On `sample_host` the first entry of the directory `/d` classifies; the
subdirectory behind it does not. -/
theorem sample_d_first_classifies :
    (∀ e ∈ [sample_file, sample_dir].take (min [sample_file, sample_dir].length 1),
      get_file_info sample_host.format_time e = .ok (sample_info e)) ∧
    get_file_info sample_host.format_time sample_dir =
      .error "filesystem error: cannot get file size: Is a directory [sub]" := by
  refine ⟨?_, rfl⟩
  intro e he
  have he2 : e ∈ [sample_file] := he
  simp only [List.mem_singleton] at he2
  subst he2
  rfl

/-- Witness for C1: the directory `/d`, a file followed by a subdirectory, with
row limit 1. -/
theorem session_returns_min_rows_witness :
    (1 : Nat) < 2 ^ 31 ∧
    (drive sample_host 2 no_sessions (first_call 1 "/d" 7)).1 =
      [Outcome.next (form_row (sample_info sample_file)), Outcome.done] ∧
    ∃ rows : List Row, rows.length = min [sample_file, sample_dir].length 1 ∧
      (drive sample_host (min [sample_file, sample_dir].length 1 + 1) no_sessions
          (first_call 1 "/d" 7)).1 =
        rows.map Outcome.next ++ [Outcome.done] :=
  ⟨by decide, by decide,
    session_returns_min_rows sample_host sample_info no_sessions (first_call 1 "/d" 7)
      [sample_file, sample_dir] 1 (by decide) rfl rfl rfl rfl sample_d_first_classifies.1 rfl
      (by decide)⟩

/-- Witness for C2: a session over `/a` at handle 7 and a session over `/b` at
handle 9, invoked alternately. -/
theorem interleaved_sessions_do_not_mix_witness :
    (7 : Handle) ≠ 9 ∧
    (∀ row, Outcome.next row ∈
        (interleave sample_host [true, false, true, false, true] no_sessions
          (first_call 5 "/a" 7) (first_call 5 "/b" 9)).1 →
      ∃ e ∈ [sample_file, sample_link], ∃ info,
        get_file_info sample_host.format_time e = .ok info ∧ row = form_row info) ∧
    (interleave sample_host [true, false, true, false, true] no_sessions
        (first_call 5 "/a" 7) (first_call 5 "/b" 9)).1 =
      [ Outcome.next (form_row (sample_info sample_file)),
        Outcome.next (form_row (sample_info sample_link)),
        Outcome.done ] :=
  have h := interleaved_sessions_do_not_mix sample_host no_sessions
    (first_call 5 "/a" 7) (first_call 5 "/b" 9) [sample_file, sample_link] [sample_device]
    (by decide) rfl rfl rfl rfl rfl rfl [true, false, true, false, true]
  ⟨by decide, h.1, by decide⟩

/-- Witness for C3: a session at handle 7 whose row limit 1 is reached. -/
theorem done_session_is_unknown_witness :
    (ptdir sample_host (one_session 7 [sample_link])
        (running_call { addr := 7, call_cntr := 1, max_calls := 1 } 1 "/a")).1 = .done ∧
    (ptdir sample_host (one_session 7 [sample_link])
        (running_call { addr := 7, call_cntr := 1, max_calls := 1 } 1 "/a")).2.1 7 = none ∧
    (drive sample_host 2
        (ptdir sample_host (one_session 7 [sample_link])
          (running_call { addr := 7, call_cntr := 1, max_calls := 1 } 1 "/a")).2.1
        (running_call { addr := 7, call_cntr := 1, max_calls := 1 } 1 "/a")).1 =
      [ Outcome.error (thrown "unknown session UID"),
        Outcome.error (thrown "unknown session UID") ] :=
  have h := done_session_is_unknown sample_host (one_session 7 [sample_link])
    (running_call { addr := 7, call_cntr := 1, max_calls := 1 } 1 "/a") rfl
  ⟨rfl, h.1, by rw [h.2 _ { addr := 7, call_cntr := 1, max_calls := 1 } rfl rfl 2]; rfl⟩

/-- Witness for C7: a first call over `/b` whose context lies at handle 7,
which already holds a cursor. -/
theorem duplicate_session_rejected_witness :
    one_session 7 [sample_link] 7 = some [sample_link] ∧
    (ptdir sample_host (one_session 7 [sample_link]) (first_call 3 "/b" 7)).2.1 =
      one_session 7 [sample_link] ∧
    (ptdir sample_host (one_session 7 [sample_link]) (first_call 3 "/b" 7)).1 =
      .error (thrown "duplicated session UID") :=
  have h := duplicate_session_rejected sample_host (one_session 7 [sample_link])
    (first_call 3 "/b" 7) [sample_link] rfl rfl
  ⟨rfl, h.1, (h.2.2.2 [sample_device] rfl rfl).2⟩

/-- Witness for the amended C8: the directory `/a` with row limit -5. -/
theorem negative_row_limit_is_large_bound_witness :
    (-5 : Int) < 0 ∧ -(2 : Int) ^ 31 ≤ -5 ∧
    2 ^ 31 ≤ to_unsigned sample_host.counter_bits (first_call (-5) "/a" 7).row_limit ∧
    (∀ e rest, [sample_file, sample_link] = e :: rest →
      (ptdir sample_host no_sessions (first_call (-5) "/a" 7)).1 =
        Outcome.next (form_row (sample_info e))) :=
  have h := negative_row_limit_is_large_bound sample_host sample_info no_sessions
    (first_call (-5) "/a" 7) [sample_file, sample_link] (by decide) rfl rfl rfl rfl
    sample_a_classifies (by decide) (by decide)
  ⟨by decide, by decide, h.2.1, h.2.2.2⟩

/-- Witness for C10: a running session at handle 7 whose cursor stands at the
broken link of `/c`. -/
theorem classification_failure_keeps_session_witness :
    get_file_info sample_host.format_time broken_link =
      .error "filesystem error: cannot get file time: No such file or directory [dangling]" ∧
    ptdir sample_host (one_session 7 [broken_link, sample_file])
        (running_call { addr := 7, call_cntr := 0, max_calls := 5 } 5 "/c") =
      (.error (thrown
          "filesystem error: cannot get file time: No such file or directory [dangling]"),
        one_session 7 [broken_link, sample_file],
        running_call { addr := 7, call_cntr := 0, max_calls := 5 } 5 "/c") ∧
    (ptdir sample_host (one_session 7 [broken_link, sample_file])
        (running_call { addr := 7, call_cntr := 0, max_calls := 5 } 5 "/c")).2.1 7 =
      some [broken_link, sample_file] :=
  ⟨rfl,
    classification_failure_keeps_session sample_host (one_session 7 [broken_link, sample_file])
      (running_call { addr := 7, call_cntr := 0, max_calls := 5 } 5 "/c")
      { addr := 7, call_cntr := 0, max_calls := 5 } broken_link [sample_file] _ rfl rfl
      (by decide) rfl⟩

end Pt
